import Mathlib

/-!
Shallow embedding of `src/dist/sw.js` (the ShoreLore cache-proxy service
worker) and proofs about its event handlers.

Modelling conventions:
* A stored response is a record of status, status text, body and response
  type (the `type` field of the platform `Response`: `"basic"`, `"opaque"`,
  `"default"`, ...).  `response.clone()` yields a value with the same data,
  so cloning is the identity on this model.
* The cache storage (`caches`) is an association list from cache name to an
  association list from URL string to stored response, in creation order;
  `caches.match` scans the caches in order (the platform checks caches in
  creation order) and each cache by key.
* Promise chains are evaluated as pure functions; a promise that may reject
  is an `Except String` value carrying the error message.  A promise chain
  that a handler starts but does not hand to `event.waitUntil` /
  `event.respondWith` is recorded separately as a "floating" task, since the
  platform is then free to terminate the worker before it settles.
* `fetch` is a parameter: for `cache.addAll` a function from URL to
  `Except String Response`, for the fetch handler a function from the
  request to `Except String Response` (`.error` = network rejection).
* `new URL(request.url).origin` is a parameter `originOf`, and
  `location.origin` a parameter `locOrigin`.
-/

namespace SW

/-- A platform response as the worker observes it: HTTP status, status text,
body bytes (as a string) and the response `type`. -/
structure Response where
  status : Nat
  statusText : String
  body : String
  rtype : String
  deriving Repr, DecidableEq

/-- A request as the fetch handler observes it: its URL string and its
`destination` (e.g. `"document"` for top-level navigations). -/
structure Request where
  url : String
  destination : String
  deriving Repr, DecidableEq

/-- One cache region: entries keyed by URL string. -/
abbrev CacheEntries := List (String × Response)

/-- The cache storage: named regions in creation order. -/
abbrev CacheState := List (String × CacheEntries)

/-- The constant `STATIC_CACHE_NAME = 'shorelore-static-v1.0.0'`. -/
def STATIC_CACHE_NAME : String := "shorelore-static-v1.0.0"

/-- The constant `DYNAMIC_CACHE_NAME = 'shorelore-dynamic-v1.0.0'`. -/
def DYNAMIC_CACHE_NAME : String := "shorelore-dynamic-v1.0.0"

/-- The constant `STATIC_FILES` — the enumerated static asset list. -/
def STATIC_FILES : List String :=
  [ "/",
    "/index.html",
    "/src/App.jsx",
    "/public/manifest.json",
    "/public/icons/icon-192x192.png",
    "/public/icons/icon-512x512.png",
    "https://cdn.tailwindcss.com",
    "https://unpkg.com/react@18/umd/react.development.js",
    "https://unpkg.com/react-dom@18/umd/react-dom.development.js",
    "https://unpkg.com/@babel/standalone/babel.min.js" ]

/-- Look a URL up in one cache region. -/
def cacheMatch (entries : CacheEntries) (url : String) : Option Response :=
  match entries with
  | [] => none
  | (u, r) :: rest => if u = url then some r else cacheMatch rest url

/-- Model of `caches.match(url)` — scan every open region in order. -/
def cachesMatch (st : CacheState) (url : String) : Option Response :=
  match st with
  | [] => none
  | (_, entries) :: rest =>
      match cacheMatch entries url with
      | some r => some r
      | none => cachesMatch rest url

/-- Model of `caches.open(name)` — returns the existing region or creates an empty
one at the end of the storage. -/
def cachesOpen (st : CacheState) (name : String) : CacheState :=
  if st.any (fun p => p.1 = name) then st else st ++ [(name, [])]

/-- Model of `caches.delete(name)` — removes the region (all entries with that
name). -/
def cachesDelete (st : CacheState) (name : String) : CacheState :=
  st.filter (fun p => ¬ p.1 = name)

/-- Model of `cache.put(request, response)` on the region called `name`: overwrite
any entry for the same URL. -/
def cachePut (st : CacheState) (name : String) (url : String) (resp : Response) :
    CacheState :=
  st.map (fun p =>
    if p.1 = name then (p.1, (url, resp) :: p.2.filter (fun e => ¬ e.1 = url))
    else p)

/-- Fetch every URL of `urls`; `cache.addAll` rejects (with the first
failure's message) if any fetch fails, and stores nothing in that case. -/
def addAll (network : String → Except String Response) (urls : List String) :
    Except String (List (String × Response)) :=
  match urls with
  | [] => .ok []
  | u :: rest =>
      match network u with
      | .error e => .error e
      | .ok r =>
          match addAll network rest with
          | .error e => .error e
          | .ok rs => .ok ((u, r) :: rs)

/-- Store a batch of fetched entries into the region called `name`. -/
def putAll (st : CacheState) (name : String) (entries : List (String × Response)) :
    CacheState :=
  entries.foldl (fun s e => cachePut s name e.1 e.2) st

/-! ## Install handler -/

/-- Result of the install handler: the cache state once every task settled,
whether `self.skipWaiting()` was called, whether the chain handed to
`event.waitUntil` resolved, and the error logged by the final `catch` (if
the bulk population failed). -/
structure InstallResult where
  st : CacheState
  skipWaitingCalled : Bool
  waitUntilResolved : Bool
  loggedError : Option String
  deriving Repr, DecidableEq

/-- The promise chain built inside `event.waitUntil` before its `catch`:
`caches.open(STATIC_CACHE_NAME).then(cache => cache.addAll(STATIC_FILES))`. -/
def installChain (network : String → Except String Response) (st : CacheState) :
    Except String CacheState :=
  let st1 := cachesOpen st STATIC_CACHE_NAME
  match addAll network STATIC_FILES with
  | .ok entries => .ok (putAll st1 STATIC_CACHE_NAME entries)
  | .error e => .error e

/-- The `install` listener: waits on the population chain with a `catch`
that logs and swallows any failure, and calls `self.skipWaiting()`
unconditionally. -/
def handleInstall (network : String → Except String Response) (st : CacheState) :
    InstallResult :=
  match installChain network st with
  | .ok st2 =>
      { st := st2, skipWaitingCalled := true, waitUntilResolved := true,
        loggedError := none }
  | .error e =>
      { st := cachesOpen st STATIC_CACHE_NAME, skipWaitingCalled := true,
        waitUntilResolved := true, loggedError := some e }

/-! ## Activate handler -/

/-- An observable action the worker performs, in order. -/
inductive SWAction where
  | deleteCache (name : String)
  | claimClients
  deriving Repr, DecidableEq

/-- The cache names for which the activate handler's
`cacheNames.map(...)` issues a `caches.delete`: those that are neither
`STATIC_CACHE_NAME` nor `DYNAMIC_CACHE_NAME`. -/
def staleNames (st : CacheState) : List String :=
  (st.map Prod.fst).filter
    (fun n => ¬ n = STATIC_CACHE_NAME ∧ ¬ n = DYNAMIC_CACHE_NAME)

/-- The `activate` listener: for every cache name that is neither the
current static nor the current dynamic name, issue `caches.delete`
(`Promise.all` over the mapped names); then `self.clients.claim()`.
Returns the resulting cache state and the ordered action trace. -/
def handleActivate (st : CacheState) : CacheState × List SWAction :=
  ((staleNames st).foldl (fun s n => cachesDelete s n) st,
   (staleNames st).map SWAction.deleteCache ++ [SWAction.claimClients])

/-! ## Fetch handler -/

/-- A cache write the fetch handler starts without tying it into the chain
handed to `event.respondWith`: region name, key URL, stored response. -/
abbrev FloatingWrite := String × String × Response

/-- What `event.respondWith` receives once the chain settles, paired with
the cache state.  `response = none` models the chain resolving with the
`undefined` that `caches.match` yields on a miss.  `awaitedSt` is the cache
state the chain handed to `respondWith` guarantees by the time it settles;
`floating` are the writes started but not awaited by that chain (the state
after they too complete is `awaitedSt` with the floating writes applied). -/
structure FetchResult where
  response : Option Response
  awaitedSt : CacheState
  floating : List FloatingWrite
  deriving Repr, DecidableEq

/-- The synthetic offline fallback
`new Response('Offline - Content not available', {status: 503, statusText: 'Service Unavailable'})`
(a constructed response has type `"default"`). -/
def offlineResponse : Response :=
  { status := 503, statusText := "Service Unavailable",
    body := "Offline - Content not available", rtype := "default" }

/-- The `fetch` listener.  `originOf` models `url => new URL(url).origin`,
`locOrigin` models `location.origin`, `network` models `fetch`.  Returns
`none` when the handler returns without calling `event.respondWith`
(cross-origin URL not in the static list), otherwise the settled
`FetchResult`. -/
def handleFetch (originOf : String → String) (locOrigin : String)
    (network : Request → Except String Response)
    (st : CacheState) (req : Request) : Option FetchResult :=
  if ¬ originOf req.url = locOrigin ∧ ¬ STATIC_FILES.contains req.url then
    none
  else
    match cachesMatch st req.url with
    | some cached => some { response := some cached, awaitedSt := st, floating := [] }
    | none =>
        match network req with
        | .ok response =>
            if ¬ response.status = 200 ∨ ¬ response.rtype = "basic" then
              some { response := some response, awaitedSt := st, floating := [] }
            else
              -- `response.clone()` duplicates the data; the copy is stored by
              -- a `caches.open(DYNAMIC_CACHE_NAME).then(cache.put(...))`
              -- chain that is not returned into the awaited chain.
              some { response := some response, awaitedSt := st,
                     floating := [(DYNAMIC_CACHE_NAME, req.url, response)] }
        | .error _ =>
            if req.destination = "document" then
              some { response := cachesMatch st "/index.html", awaitedSt := st,
                     floating := [] }
            else
              some { response := some offlineResponse, awaitedSt := st,
                     floating := [] }

/-- Apply the floating writes (`caches.open` then `cache.put`) to a state:
the cache state once the platform lets them run to completion. -/
def applyFloating (st : CacheState) (ws : List FloatingWrite) : CacheState :=
  ws.foldl (fun s w => cachePut (cachesOpen s w.1) w.1 w.2.1 w.2.2) st

/-- The eventual cache state of a fetch outcome, assuming the worker stays
alive long enough for the floating writes to finish. -/
def FetchResult.finalSt (r : FetchResult) : CacheState :=
  applyFloating r.awaitedSt r.floating

/-! ## Message handler -/

/-- A reply object posted over a message port: `{success: true}` or
`{success: false, error: string}`. -/
structure Reply where
  success : Bool
  error : Option String
  deriving Repr, DecidableEq

/-- Outcome of the `UPDATE_CACHE` promise chain.  `delivered` lists the
replies actually posted; the two `Attempted` flags record that the code
reached the corresponding `event.ports[0].postMessage(...)` expression;
`chainRejected` records that the chain ended in an uncaught rejection
(`event.ports[0]` being `undefined` makes the member access throw). -/
structure UpdateOutcome where
  st : CacheState
  delivered : List Reply
  successPostAttempted : Bool
  failurePostAttempted : Bool
  chainRejected : Bool
  deriving Repr, DecidableEq

/-- The `UPDATE_CACHE` branch of the message listener:
`caches.delete(STATIC).then(() => caches.delete(DYNAMIC)).then(() =>
caches.open(STATIC)).then(cache => cache.addAll(STATIC_FILES)).then(post
success).catch(post failure)`.  `ports` is the length of `event.ports`;
when it is `0`, `event.ports[0].postMessage` throws, so the success post
falls into the `catch`, whose own post throws again, leaving the chain
rejected with nothing delivered.  `emptiedState` is the storage after the
first three steps: both named regions deleted and the static one
re-opened empty. -/
def emptiedState (st : CacheState) : CacheState :=
  cachesOpen (cachesDelete (cachesDelete st STATIC_CACHE_NAME) DYNAMIC_CACHE_NAME)
    STATIC_CACHE_NAME

/-- The `UPDATE_CACHE` promise chain itself (see `emptiedState`). -/
def handleUpdateCache (network : String → Except String Response)
    (st : CacheState) (ports : Nat) : UpdateOutcome :=
  match addAll network STATIC_FILES with
  | .ok entries =>
      if ports = 0 then
        { st := putAll (emptiedState st) STATIC_CACHE_NAME entries,
          delivered := [], successPostAttempted := true,
          failurePostAttempted := true, chainRejected := true }
      else
        { st := putAll (emptiedState st) STATIC_CACHE_NAME entries,
          delivered := [{ success := true, error := none }],
          successPostAttempted := true, failurePostAttempted := false,
          chainRejected := false }
  | .error e =>
      if ports = 0 then
        { st := emptiedState st, delivered := [], successPostAttempted := false,
          failurePostAttempted := true, chainRejected := true }
      else
        { st := emptiedState st,
          delivered := [{ success := false, error := some e }],
          successPostAttempted := false, failurePostAttempted := true,
          chainRejected := false }

/-- Result of the whole message listener: whether `self.skipWaiting()` was
called and, when the `UPDATE_CACHE` branch ran, its outcome. -/
structure MessageResult where
  skipWaitingCalled : Bool
  update : Option UpdateOutcome
  deriving Repr, DecidableEq

/-- The `message` listener.  `data` is `some t` when `event.data` is an
object with `type` field `t`, `none` when `event.data` is absent. -/
def handleMessage (network : String → Except String Response)
    (st : CacheState) (ports : Nat) (data : Option String) : MessageResult :=
  { skipWaitingCalled := data = some "SKIP_WAITING",
    update :=
      if data = some "UPDATE_CACHE" then some (handleUpdateCache network st ports)
      else none }

/-! ## Auxiliary observations on the cache storage -/

/-- A region with the given name is open. -/
def HasRegion (st : CacheState) (name : String) : Prop :=
  name ∈ st.map Prod.fst

/-- Look a URL up in the region with the given name only. -/
def inRegion (st : CacheState) (name url : String) : Option Response :=
  match st with
  | [] => none
  | (m, es) :: rest => if m = name then cacheMatch es url else inRegion rest name url

/-! ## Lemmas about the cache operations -/

theorem hasRegion_open (st : CacheState) (n : String) :
    HasRegion (cachesOpen st n) n := by
  unfold cachesOpen HasRegion
  by_cases h : st.any (fun p => p.1 = n)
  · rw [if_pos h]
    rcases List.any_eq_true.mp h with ⟨p, hp, hpn⟩
    exact List.mem_map.mpr ⟨p, hp, of_decide_eq_true hpn⟩
  · rw [if_neg h, List.map_append]
    exact List.mem_append_right _ (by simp)

theorem hasRegion_put (st : CacheState) (m k : String) (r : Response) (n : String)
    (h : HasRegion st n) : HasRegion (cachePut st m k r) n := by
  unfold HasRegion cachePut
  unfold HasRegion at h
  rcases List.mem_map.mp h with ⟨p, hp, hpn⟩
  apply List.mem_map.mpr
  refine ⟨if p.1 = m then (p.1, (k, r) :: p.2.filter (fun e => ¬ e.1 = k)) else p,
    List.mem_map_of_mem _ hp, ?_⟩
  by_cases hpm : p.1 = m
  · rw [if_pos hpm]; exact hpn
  · rw [if_neg hpm]; exact hpn

theorem cacheMatch_filter_ne (es : CacheEntries) (k url : String) (h : ¬ k = url) :
    cacheMatch (es.filter (fun e => ¬ e.1 = k)) url = cacheMatch es url := by
  induction es with
  | nil => rfl
  | cons e rest ih =>
      by_cases hek : e.1 = k
      · have hne : ¬ e.1 = url := by rw [hek]; exact h
        rw [List.filter_cons_of_neg (by simpa using hek)]
        rw [ih]
        show cacheMatch rest url = cacheMatch (e :: rest) url
        rcases e with ⟨u, r⟩
        simp only [cacheMatch]
        rw [if_neg (by simpa using hne)]
      · rw [List.filter_cons_of_pos (by simpa using hek)]
        rcases e with ⟨u, r⟩
        simp only [cacheMatch]
        by_cases hu : u = url
        · rw [if_pos hu, if_pos hu]
        · rw [if_neg hu, if_neg hu, ih]

theorem cachesMatch_put_other (st : CacheState) (n k : String) (r : Response)
    (url : String) (h : ¬ k = url) :
    cachesMatch (cachePut st n k r) url = cachesMatch st url := by
  induction st with
  | nil => rfl
  | cons p rest ih =>
      rcases p with ⟨m, es⟩
      by_cases hmn : m = n
      · simp only [cachePut, List.map_cons, if_pos hmn]
        simp only [cachesMatch, cacheMatch]
        rw [if_neg h, cacheMatch_filter_ne es k url h]
        cases hes : cacheMatch es url with
        | some v => rfl
        | none => simpa only [cachePut] using ih
      · simp only [cachePut, List.map_cons, if_neg hmn]
        simp only [cachesMatch]
        cases hes : cacheMatch es url with
        | some v => rfl
        | none => simpa only [cachePut] using ih

theorem cachesMatch_put_self (st : CacheState) (n url : String) (r : Response)
    (hmiss : cachesMatch st url = none) (hreg : HasRegion st n) :
    cachesMatch (cachePut st n url r) url = some r := by
  induction st with
  | nil => exact absurd hreg (by simp [HasRegion])
  | cons p rest ih =>
      rcases p with ⟨m, es⟩
      simp only [cachesMatch] at hmiss
      have hes : cacheMatch es url = none := by
        cases h : cacheMatch es url with
        | some v => rw [h] at hmiss; exact absurd hmiss (by simp)
        | none => rfl
      rw [hes] at hmiss
      by_cases hmn : m = n
      · simp only [cachePut, List.map_cons, if_pos hmn]
        simp [cachesMatch, cacheMatch]
      · simp only [cachePut, List.map_cons, if_neg hmn]
        simp only [cachesMatch, hes]
        have hreg' : HasRegion rest n := by
          unfold HasRegion at hreg ⊢
          rcases List.mem_map.mp hreg with ⟨q, hq, hqn⟩
          rcases List.mem_cons.mp hq with hq1 | hq2
          · rw [hq1] at hqn; exact absurd hqn hmn
          · exact List.mem_map.mpr ⟨q, hq2, hqn⟩
        simpa only [cachePut] using ih hmiss hreg'

theorem cachesMatch_put_self_isSome (st : CacheState) (n url : String) (r : Response)
    (hreg : HasRegion st n) :
    (cachesMatch (cachePut st n url r) url).isSome := by
  induction st with
  | nil => exact absurd hreg (by simp [HasRegion])
  | cons p rest ih =>
      rcases p with ⟨m, es⟩
      by_cases hmn : m = n
      · simp only [cachePut, List.map_cons, if_pos hmn]
        simp [cachesMatch, cacheMatch]
      · simp only [cachePut, List.map_cons, if_neg hmn]
        simp only [cachesMatch]
        cases hes : cacheMatch es url with
        | some v => rfl
        | none =>
            have hreg' : HasRegion rest n := by
              unfold HasRegion at hreg ⊢
              rcases List.mem_map.mp hreg with ⟨q, hq, hqn⟩
              rcases List.mem_cons.mp hq with hq1 | hq2
              · rw [hq1] at hqn; exact absurd hqn hmn
              · exact List.mem_map.mpr ⟨q, hq2, hqn⟩
            simpa only [cachePut] using ih hreg'

theorem cachesMatch_append_empty (st : CacheState) (n url : String) :
    cachesMatch (st ++ [(n, [])]) url = cachesMatch st url := by
  induction st with
  | nil => rfl
  | cons p rest ih =>
      rcases p with ⟨m, es⟩
      simp only [List.cons_append, cachesMatch]
      cases cacheMatch es url with
      | some v => rfl
      | none => exact ih

theorem cachesMatch_open (st : CacheState) (n url : String) :
    cachesMatch (cachesOpen st n) url = cachesMatch st url := by
  unfold cachesOpen
  by_cases h : st.any (fun p => p.1 = n)
  · rw [if_pos h]
  · rw [if_neg h]; exact cachesMatch_append_empty st n url

theorem cachesMatch_open_put (st : CacheState) (n url : String) (r : Response)
    (hmiss : cachesMatch st url = none) :
    cachesMatch (cachePut (cachesOpen st n) n url r) url = some r :=
  cachesMatch_put_self _ _ _ _
    (by rw [cachesMatch_open]; exact hmiss) (hasRegion_open st n)

theorem cachesMatch_putAll_other (st : CacheState) (n : String)
    (entries : List (String × Response)) (url : String)
    (h : ¬ url ∈ entries.map Prod.fst) :
    cachesMatch (putAll st n entries) url = cachesMatch st url := by
  induction entries generalizing st with
  | nil => rfl
  | cons e rest ih =>
      simp only [List.map_cons, List.mem_cons, not_or] at h
      show cachesMatch (putAll (cachePut st n e.1 e.2) n rest) url = _
      rw [ih _ h.2, cachesMatch_put_other _ _ _ _ _ (fun hk => h.1 hk.symm)]

theorem cachesMatch_putAll_isSome (st : CacheState) (n : String)
    (entries : List (String × Response)) (url : String)
    (hreg : HasRegion st n) (hmem : url ∈ entries.map Prod.fst) :
    (cachesMatch (putAll st n entries) url).isSome := by
  induction entries generalizing st with
  | nil => simp at hmem
  | cons e rest ih =>
      show (cachesMatch (putAll (cachePut st n e.1 e.2) n rest) url).isSome
      by_cases hmem' : url ∈ rest.map Prod.fst
      · exact ih _ (hasRegion_put _ _ _ _ _ hreg) hmem'
      · have hurl : url = e.1 := by
          simp only [List.map_cons, List.mem_cons] at hmem
          tauto
        rw [cachesMatch_putAll_other _ _ _ _ hmem', hurl]
        exact cachesMatch_put_self_isSome st n e.1 e.2 hreg

theorem addAll_keys (network : String → Except String Response)
    (urls : List String) (entries : List (String × Response))
    (h : addAll network urls = .ok entries) :
    entries.map Prod.fst = urls := by
  induction urls generalizing entries with
  | nil =>
      unfold addAll at h
      cases h
      rfl
  | cons u rest ih =>
      unfold addAll at h
      cases hn : network u with
      | error e => rw [hn] at h; cases h
      | ok r =>
          rw [hn] at h
          cases ha : addAll network rest with
          | error e => rw [ha] at h; cases h
          | ok rs =>
              rw [ha] at h
              cases h
              simp only [List.map_cons]
              rw [ih rs ha]

theorem inRegion_put (st : CacheState) (n url : String) (r : Response)
    (hreg : HasRegion st n) :
    inRegion (cachePut st n url r) n url = some r := by
  induction st with
  | nil => exact absurd hreg (by simp [HasRegion])
  | cons p rest ih =>
      rcases p with ⟨m, es⟩
      by_cases hmn : m = n
      · simp only [cachePut, List.map_cons, if_pos hmn]
        simp [inRegion, hmn, cacheMatch]
      · simp only [cachePut, List.map_cons, if_neg hmn]
        simp only [inRegion, if_neg hmn]
        have hreg' : HasRegion rest n := by
          unfold HasRegion at hreg ⊢
          rcases List.mem_map.mp hreg with ⟨q, hq, hqn⟩
          rcases List.mem_cons.mp hq with hq1 | hq2
          · rw [hq1] at hqn; exact absurd hqn hmn
          · exact List.mem_map.mpr ⟨q, hq2, hqn⟩
        simpa only [cachePut] using ih hreg'

theorem mem_foldl_delete (names : List String) (s : CacheState)
    (p : String × CacheEntries)
    (h : p ∈ names.foldl (fun s n => cachesDelete s n) s) :
    p ∈ s ∧ ∀ n ∈ names, ¬ p.1 = n := by
  induction names generalizing s with
  | nil => exact ⟨h, by simp⟩
  | cons n rest ih =>
      obtain ⟨hmem, hrest⟩ := ih (cachesDelete s n) h
      unfold cachesDelete at hmem
      rw [List.mem_filter] at hmem
      refine ⟨hmem.1, ?_⟩
      intro m hm
      rcases List.mem_cons.mp hm with hm1 | hm2
      · rw [hm1]; simpa using hmem.2
      · exact hrest m hm2

theorem delete_both_nil (st : CacheState)
    (h : ∀ p ∈ st, p.1 = STATIC_CACHE_NAME ∨ p.1 = DYNAMIC_CACHE_NAME) :
    cachesDelete (cachesDelete st STATIC_CACHE_NAME) DYNAMIC_CACHE_NAME = [] := by
  induction st with
  | nil => rfl
  | cons p rest ih =>
      have hrest := ih (fun q hq => h q (List.mem_cons_of_mem p hq))
      rcases h p (List.mem_cons_self p rest) with hp | hp
      · unfold cachesDelete
        rw [List.filter_cons_of_neg (by simpa using hp)]
        exact hrest
      · unfold cachesDelete
        by_cases hps : p.1 = STATIC_CACHE_NAME
        · rw [List.filter_cons_of_neg (by simpa using hps)]
          exact hrest
        · rw [List.filter_cons_of_pos (by simpa using hps),
            List.filter_cons_of_neg (by simpa using hp)]
          exact hrest

/-! ## Sample values used to instantiate theorems -/

/-- A successful same-origin response. -/
def sampleResp : Response :=
  { status := 200, statusText := "OK", body := "hello", rtype := "basic" }

/-- A same-origin non-navigation request. -/
def sampleReq : Request :=
  { url := "https://app.example/data.json", destination := "script" }

/-- A network where every fetch succeeds with `sampleResp`. -/
def sampleNet : Request → Except String Response := fun _ => .ok sampleResp

/-- An origin function placing every URL on the app's origin. -/
def sampleOriginOf : String → String := fun _ => "https://app.example"

/-! ## Claim theorems -/

/-- C5: after the activate handler's asynchronous work completes, every
remaining cache region is named either `STATIC_CACHE_NAME` or
`DYNAMIC_CACHE_NAME` (every region enumerated at activation time with any
other name is deleted), and `clients.claim` is the final action of the
trace, after all the deletions. -/
theorem activate_deletes_stale_then_claims (st : CacheState) :
    (∀ p ∈ (handleActivate st).1,
        p.1 = STATIC_CACHE_NAME ∨ p.1 = DYNAMIC_CACHE_NAME)
    ∧ (handleActivate st).2.getLast? = some SWAction.claimClients
    ∧ ∀ a ∈ (handleActivate st).2.dropLast,
        ∃ n, a = SWAction.deleteCache n
          ∧ ¬ n = STATIC_CACHE_NAME ∧ ¬ n = DYNAMIC_CACHE_NAME := by
  refine ⟨?_, ?_, ?_⟩
  · intro p hp
    have h := mem_foldl_delete (staleNames st) st p hp
    by_contra hcon
    push_neg at hcon
    have hmem : p.1 ∈ staleNames st := by
      unfold staleNames
      rw [List.mem_filter]
      exact ⟨List.mem_map_of_mem Prod.fst h.1, by simpa using hcon⟩
    exact h.2 p.1 hmem rfl
  · show ((staleNames st).map SWAction.deleteCache ++ [SWAction.claimClients]).getLast?
      = some SWAction.claimClients
    rw [List.getLast?_concat]
  · intro a ha
    have ha' : a ∈ (staleNames st).map SWAction.deleteCache := by
      have : ((staleNames st).map SWAction.deleteCache
          ++ [SWAction.claimClients]).dropLast
          = (staleNames st).map SWAction.deleteCache := List.dropLast_concat
      rw [show (handleActivate st).2
          = (staleNames st).map SWAction.deleteCache ++ [SWAction.claimClients]
          from rfl, this] at ha
      exact ha
    rcases List.mem_map.mp ha' with ⟨n, hn, rfl⟩
    unfold staleNames at hn
    rw [List.mem_filter] at hn
    exact ⟨n, rfl, by simpa using hn.2⟩

/-- Witness for C5 at a concrete storage holding a stale region
`shorelore-v1.0.0` next to the current static region. -/
theorem activate_deletes_stale_then_claims_app :
    (STATIC_CACHE_NAME, ([] : CacheEntries))
        ∈ (handleActivate [("shorelore-v1.0.0", []), (STATIC_CACHE_NAME, [])]).1
    ∧ ((STATIC_CACHE_NAME, ([] : CacheEntries)).1 = STATIC_CACHE_NAME
        ∨ (STATIC_CACHE_NAME, ([] : CacheEntries)).1 = DYNAMIC_CACHE_NAME)
    ∧ (handleActivate [("shorelore-v1.0.0", []), (STATIC_CACHE_NAME, [])]).2.getLast?
        = some SWAction.claimClients := by
  have hmem : (STATIC_CACHE_NAME, ([] : CacheEntries))
      ∈ (handleActivate [("shorelore-v1.0.0", []), (STATIC_CACHE_NAME, [])]).1 := by
    decide
  have h := activate_deletes_stale_then_claims
    [("shorelore-v1.0.0", []), (STATIC_CACHE_NAME, [])]
  exact ⟨hmem, h.1 _ hmem, h.2.1⟩

/-- C1: for an intercepted request missing from every cache region whose
network fetch resolves, if the response has status 200 and type `"basic"`
the handler returns it and (eventually) stores a copy into the DYNAMIC
region keyed by the request's URL; otherwise the response is returned
as-is and no cache region is modified. -/
theorem fetch_caches_qualifying_response (originOf : String → String)
    (locOrigin : String) (network : Request → Except String Response)
    (st : CacheState) (req : Request) (resp : Response)
    (hhandled : originOf req.url = locOrigin ∨ STATIC_FILES.contains req.url)
    (hmiss : cachesMatch st req.url = none)
    (hnet : network req = .ok resp) :
    ∃ res, handleFetch originOf locOrigin network st req = some res
      ∧ res.response = some resp
      ∧ (resp.status = 200 ∧ resp.rtype = "basic" →
          inRegion res.finalSt DYNAMIC_CACHE_NAME req.url = some resp)
      ∧ (¬ (resp.status = 200 ∧ resp.rtype = "basic") →
          res.finalSt = st) := by
  have hcond : ¬ (¬ originOf req.url = locOrigin
      ∧ ¬ STATIC_FILES.contains req.url = true) := by tauto
  by_cases hq : resp.status = 200 ∧ resp.rtype = "basic"
  · have hval : handleFetch originOf locOrigin network st req
        = some { response := some resp, awaitedSt := st,
                 floating := [(DYNAMIC_CACHE_NAME, req.url, resp)] } := by
      simp only [handleFetch, if_neg hcond, hmiss, hnet]
      rw [if_neg (show ¬ (¬ resp.status = 200 ∨ ¬ resp.rtype = "basic") from
        by tauto)]
    refine ⟨_, hval, rfl, fun _ => ?_, fun hc => absurd hq hc⟩
    exact inRegion_put _ _ _ _ (hasRegion_open st DYNAMIC_CACHE_NAME)
  · have hval : handleFetch originOf locOrigin network st req
        = some { response := some resp, awaitedSt := st, floating := [] } := by
      simp only [handleFetch, if_neg hcond, hmiss, hnet]
      rw [if_pos (show (¬ resp.status = 200 ∨ ¬ resp.rtype = "basic") from
        by tauto)]
    exact ⟨_, hval, rfl, fun hc => absurd hc hq, fun _ => rfl⟩

/-- Witness for C1: a same-origin request, empty storage, network returning
a 200 basic response. -/
theorem fetch_caches_qualifying_response_app :
    sampleOriginOf sampleReq.url = "https://app.example"
    ∧ cachesMatch [] sampleReq.url = none
    ∧ sampleNet sampleReq = .ok sampleResp
    ∧ ∃ res, handleFetch sampleOriginOf "https://app.example" sampleNet [] sampleReq
        = some res
      ∧ res.response = some sampleResp
      ∧ inRegion res.finalSt DYNAMIC_CACHE_NAME sampleReq.url = some sampleResp := by
  refine ⟨rfl, rfl, rfl, ?_⟩
  obtain ⟨res, h1, h2, h3, _⟩ := fetch_caches_qualifying_response sampleOriginOf
    "https://app.example" sampleNet [] sampleReq sampleResp (Or.inl rfl) rfl rfl
  exact ⟨res, h1, h2, h3 ⟨rfl, rfl⟩⟩

/-- C2: a request whose URL's origin differs from the worker's origin and
which is not one of the enumerated static asset URLs is not responded to at
all; otherwise, when any open region already holds the request's URL, the
stored response is returned immediately with no cache change, whatever the
network does (no network fetch is performed). -/
theorem fetch_scope_and_cache_first (originOf : String → String)
    (locOrigin : String) (st : CacheState) (req : Request) :
    ((¬ originOf req.url = locOrigin ∧ ¬ STATIC_FILES.contains req.url) →
      ∀ network, handleFetch originOf locOrigin network st req = none)
    ∧ ((originOf req.url = locOrigin ∨ STATIC_FILES.contains req.url) →
      ∀ c, cachesMatch st req.url = some c →
      ∀ network, handleFetch originOf locOrigin network st req
        = some { response := some c, awaitedSt := st, floating := [] }) := by
  constructor
  · intro h network
    unfold handleFetch
    rw [if_pos h]
  · intro hhandled c hc network
    have hcond : ¬ (¬ originOf req.url = locOrigin
        ∧ ¬ STATIC_FILES.contains req.url = true) := by tauto
    unfold handleFetch
    rw [if_neg hcond, hc]

/-- Witness for C2: a cross-origin request is ignored; a request already in
the static region is answered from it for any two networks alike. -/
theorem fetch_scope_and_cache_first_app :
    ((fun _ => "https://other.example") "https://other.example/x"
        = "https://other.example"
      ∧ ¬ ("https://other.example" = "https://app.example"
            ∧ ¬ STATIC_FILES.contains "https://other.example/x" = true))
    ∧ handleFetch (fun _ => "https://other.example") "https://app.example"
        sampleNet [] { url := "https://other.example/x", destination := "script" }
        = none
    ∧ cachesMatch [(STATIC_CACHE_NAME, [(sampleReq.url, sampleResp)])] sampleReq.url
        = some sampleResp
    ∧ handleFetch sampleOriginOf "https://app.example"
        (fun _ => .error "network down")
        [(STATIC_CACHE_NAME, [(sampleReq.url, sampleResp)])] sampleReq
        = some { response := some sampleResp,
                 awaitedSt := [(STATIC_CACHE_NAME, [(sampleReq.url, sampleResp)])],
                 floating := [] } := by
  refine ⟨⟨rfl, by decide⟩, ?_, rfl, ?_⟩
  · exact (fetch_scope_and_cache_first (fun _ => "https://other.example")
      "https://app.example" []
      { url := "https://other.example/x", destination := "script" }).1
      ⟨by decide, by decide⟩ sampleNet
  · exact (fetch_scope_and_cache_first sampleOriginOf "https://app.example"
      [(STATIC_CACHE_NAME, [(sampleReq.url, sampleResp)])] sampleReq).2
      (Or.inl rfl) sampleResp rfl (fun _ => .error "network down")

/-- C3: for an intercepted request missing from every region whose network
fetch rejects, a navigation (`destination = "document"`) is answered with
the cached root document, and every other request is answered with the
synthetic response of status 503, status text "Service Unavailable" and
body "Offline - Content not available". -/
theorem fetch_offline_fallbacks (originOf : String → String)
    (locOrigin : String) (network : Request → Except String Response)
    (st : CacheState) (req : Request) (e : String)
    (hhandled : originOf req.url = locOrigin ∨ STATIC_FILES.contains req.url)
    (hmiss : cachesMatch st req.url = none)
    (hnet : network req = .error e) :
    (req.destination = "document" →
      ∀ r, cachesMatch st "/index.html" = some r →
        handleFetch originOf locOrigin network st req
          = some { response := some r, awaitedSt := st, floating := [] })
    ∧ (¬ req.destination = "document" →
        handleFetch originOf locOrigin network st req
          = some { response := some
                    { status := 503, statusText := "Service Unavailable",
                      body := "Offline - Content not available",
                      rtype := "default" },
                   awaitedSt := st, floating := [] }) := by
  have hcond : ¬ (¬ originOf req.url = locOrigin
      ∧ ¬ STATIC_FILES.contains req.url = true) := by tauto
  constructor
  · intro hdoc r hr
    simp only [handleFetch, if_neg hcond, hmiss, hnet]
    rw [if_pos hdoc, hr]
  · intro hdoc
    simp only [handleFetch, if_neg hcond, hmiss, hnet]
    rw [if_neg hdoc]
    rfl

/-- Witness for C3: an empty-but-for-the-shell storage, a failing network,
one navigation request and one script request. -/
theorem fetch_offline_fallbacks_app :
    cachesMatch [(STATIC_CACHE_NAME, [("/index.html", sampleResp)])] "/index.html"
      = some sampleResp
    ∧ handleFetch sampleOriginOf "https://app.example" (fun _ => .error "offline")
        [(STATIC_CACHE_NAME, [("/index.html", sampleResp)])]
        { url := "https://app.example/page", destination := "document" }
      = some { response := some sampleResp,
               awaitedSt := [(STATIC_CACHE_NAME, [("/index.html", sampleResp)])],
               floating := [] }
    ∧ handleFetch sampleOriginOf "https://app.example" (fun _ => .error "offline")
        [] sampleReq
      = some { response := some
                { status := 503, statusText := "Service Unavailable",
                  body := "Offline - Content not available", rtype := "default" },
               awaitedSt := [], floating := [] } := by
  refine ⟨rfl, ?_, ?_⟩
  · exact (fetch_offline_fallbacks sampleOriginOf "https://app.example"
      (fun _ => .error "offline")
      [(STATIC_CACHE_NAME, [("/index.html", sampleResp)])]
      { url := "https://app.example/page", destination := "document" } "offline"
      (Or.inl rfl) (by decide) rfl).1 rfl sampleResp rfl
  · exact (fetch_offline_fallbacks sampleOriginOf "https://app.example"
      (fun _ => .error "offline") [] sampleReq "offline"
      (Or.inl rfl) rfl rfl).2 (by decide)

/-- C9: a navigation request whose network fetch rejects and for which
`/index.html` is in no cache region makes the handler resolve its
`respondWith` promise with no response at all (the miss is passed through),
not with the synthetic 503 fallback. -/
theorem fetch_navigation_without_shell (originOf : String → String)
    (locOrigin : String) (network : Request → Except String Response)
    (st : CacheState) (req : Request) (e : String)
    (hhandled : originOf req.url = locOrigin ∨ STATIC_FILES.contains req.url)
    (hmiss : cachesMatch st req.url = none)
    (hnet : network req = .error e)
    (hdoc : req.destination = "document")
    (hnoshell : cachesMatch st "/index.html" = none) :
    handleFetch originOf locOrigin network st req
      = some { response := none, awaitedSt := st, floating := [] } := by
  have hcond : ¬ (¬ originOf req.url = locOrigin
      ∧ ¬ STATIC_FILES.contains req.url = true) := by tauto
  simp only [handleFetch, if_neg hcond, hmiss, hnet]
  rw [if_pos hdoc, hnoshell]

/-- Witness for C9: empty storage, failing network, navigation request. -/
theorem fetch_navigation_without_shell_app :
    cachesMatch [] "/index.html" = none
    ∧ handleFetch sampleOriginOf "https://app.example" (fun _ => .error "offline")
        [] { url := "https://app.example/page", destination := "document" }
      = some { response := none, awaitedSt := [], floating := [] } :=
  ⟨rfl, fetch_navigation_without_shell sampleOriginOf "https://app.example"
    (fun _ => .error "offline") []
    { url := "https://app.example/page", destination := "document" } "offline"
    (Or.inl rfl) rfl rfl rfl rfl⟩

/-- C6: after one uncached fetch of a same-origin request that returns a
200 `"basic"` response, the response sits in the DYNAMIC region under the
request's URL, and an identical request against the resulting storage is
answered with that stored response with no cache change, for every network
alike (no second network fetch). -/
theorem fetch_then_refetch_roundtrip (originOf : String → String)
    (locOrigin : String) (network : Request → Except String Response)
    (st : CacheState) (req : Request) (resp : Response)
    (hhandled : originOf req.url = locOrigin ∨ STATIC_FILES.contains req.url)
    (hmiss : cachesMatch st req.url = none)
    (hnet : network req = .ok resp)
    (hs : resp.status = 200) (ht : resp.rtype = "basic") :
    ∃ res, handleFetch originOf locOrigin network st req = some res
      ∧ res.response = some resp
      ∧ inRegion res.finalSt DYNAMIC_CACHE_NAME req.url = some resp
      ∧ ∀ network2, handleFetch originOf locOrigin network2 res.finalSt req
          = some { response := some resp, awaitedSt := res.finalSt,
                   floating := [] } := by
  have hcond : ¬ (¬ originOf req.url = locOrigin
      ∧ ¬ STATIC_FILES.contains req.url = true) := by tauto
  have hval : handleFetch originOf locOrigin network st req
      = some { response := some resp, awaitedSt := st,
               floating := [(DYNAMIC_CACHE_NAME, req.url, resp)] } := by
    simp only [handleFetch, if_neg hcond, hmiss, hnet]
    rw [if_neg (show ¬ (¬ resp.status = 200 ∨ ¬ resp.rtype = "basic") from
      by tauto)]
  have hstored : cachesMatch
      (cachePut (cachesOpen st DYNAMIC_CACHE_NAME) DYNAMIC_CACHE_NAME req.url resp)
      req.url = some resp := cachesMatch_open_put st DYNAMIC_CACHE_NAME req.url resp hmiss
  refine ⟨_, hval, rfl, ?_, ?_⟩
  · exact inRegion_put _ _ _ _ (hasRegion_open st DYNAMIC_CACHE_NAME)
  · intro network2
    simp only [handleFetch, if_neg hcond]
    rw [show FetchResult.finalSt
        { response := some resp, awaitedSt := st,
          floating := [(DYNAMIC_CACHE_NAME, req.url, resp)] }
        = cachePut (cachesOpen st DYNAMIC_CACHE_NAME) DYNAMIC_CACHE_NAME req.url resp
       from rfl, hstored]

/-- Witness for C6: empty storage, one successful fetch, then the same
request against a network that would fail. -/
theorem fetch_then_refetch_roundtrip_app :
    ∃ res, handleFetch sampleOriginOf "https://app.example" sampleNet [] sampleReq
        = some res
      ∧ inRegion res.finalSt DYNAMIC_CACHE_NAME sampleReq.url = some sampleResp
      ∧ handleFetch sampleOriginOf "https://app.example" (fun _ => .error "offline")
          res.finalSt sampleReq
        = some { response := some sampleResp, awaitedSt := res.finalSt,
                 floating := [] } := by
  obtain ⟨res, h1, _, h3, h4⟩ := fetch_then_refetch_roundtrip sampleOriginOf
    "https://app.example" sampleNet [] sampleReq sampleResp
    (Or.inl rfl) rfl rfl rfl rfl
  exact ⟨res, h1, h3, h4 (fun _ => .error "offline")⟩

/-- A per-URL network where every fetch succeeds with `sampleResp`. -/
def netAllOk : String → Except String Response := fun _ => .ok sampleResp

/-- A per-URL network where every fetch fails. -/
def netAllFail : String → Except String Response := fun _ => .error "fetch failed"

/-- C4: on an `UPDATE_CACHE` message with a reply port, the handler deletes
both named regions, repopulates the static one from the enumerated asset
list, and replies `{success: true}` when every step succeeded — after
which lookups of any non-static URL miss and every static asset is present
— or `{success: false, error: message}` when the population failed. -/
theorem update_cache_resets_regions (network : String → Except String Response)
    (st : CacheState) (ports : Nat)
    (hports : ¬ ports = 0)
    (hnames : ∀ p ∈ st, p.1 = STATIC_CACHE_NAME ∨ p.1 = DYNAMIC_CACHE_NAME) :
    (handleMessage network st ports (some "UPDATE_CACHE")).update
      = some (handleUpdateCache network st ports)
    ∧ (∀ entries, addAll network STATIC_FILES = .ok entries →
        (handleUpdateCache network st ports).delivered
            = [{ success := true, error := none }]
        ∧ (handleUpdateCache network st ports).chainRejected = false
        ∧ (∀ url, ¬ url ∈ STATIC_FILES →
            cachesMatch (handleUpdateCache network st ports).st url = none)
        ∧ (∀ url ∈ STATIC_FILES,
            (cachesMatch (handleUpdateCache network st ports).st url).isSome))
    ∧ (∀ e, addAll network STATIC_FILES = .error e →
        (handleUpdateCache network st ports).delivered
            = [{ success := false, error := some e }]
        ∧ (handleUpdateCache network st ports).chainRejected = false) := by
  have hempt : emptiedState st = [(STATIC_CACHE_NAME, [])] := by
    unfold emptiedState
    rw [delete_both_nil st hnames]
    rfl
  refine ⟨by simp [handleMessage], ?_, ?_⟩
  · intro entries ha
    have hval : handleUpdateCache network st ports
        = { st := putAll (emptiedState st) STATIC_CACHE_NAME entries,
            delivered := [{ success := true, error := none }],
            successPostAttempted := true, failurePostAttempted := false,
            chainRejected := false } := by
      simp only [handleUpdateCache, ha]
      rw [if_neg hports]
    refine ⟨by rw [hval], by rw [hval], ?_, ?_⟩
    · intro url hurl
      rw [hval]
      show cachesMatch (putAll (emptiedState st) STATIC_CACHE_NAME entries) url = none
      rw [hempt, cachesMatch_putAll_other]
      · rfl
      · rw [addAll_keys network STATIC_FILES entries ha]
        exact hurl
    · intro url hurl
      rw [hval]
      show (cachesMatch (putAll (emptiedState st) STATIC_CACHE_NAME entries) url).isSome
      rw [hempt]
      apply cachesMatch_putAll_isSome
      · simp [HasRegion]
      · rw [addAll_keys network STATIC_FILES entries ha]
        exact hurl
  · intro e ha
    have hval : handleUpdateCache network st ports
        = { st := emptiedState st,
            delivered := [{ success := false, error := some e }],
            successPostAttempted := false, failurePostAttempted := true,
            chainRejected := false } := by
      simp only [handleUpdateCache, ha]
      rw [if_neg hports]
    exact ⟨by rw [hval], by rw [hval]⟩

/-- Witness for C4: a storage holding one dynamically cached URL, one
all-succeeding network and one all-failing network, one reply port. -/
theorem update_cache_resets_regions_app :
    addAll netAllOk STATIC_FILES = .ok (STATIC_FILES.map (fun u => (u, sampleResp)))
    ∧ (handleUpdateCache netAllOk [(DYNAMIC_CACHE_NAME, [(sampleReq.url, sampleResp)])] 1).delivered
        = [{ success := true, error := none }]
    ∧ cachesMatch
        (handleUpdateCache netAllOk [(DYNAMIC_CACHE_NAME, [(sampleReq.url, sampleResp)])] 1).st
        sampleReq.url = none
    ∧ (cachesMatch
        (handleUpdateCache netAllOk [(DYNAMIC_CACHE_NAME, [(sampleReq.url, sampleResp)])] 1).st
        "/index.html").isSome
    ∧ addAll netAllFail STATIC_FILES = .error "fetch failed"
    ∧ (handleUpdateCache netAllFail [(DYNAMIC_CACHE_NAME, [(sampleReq.url, sampleResp)])] 1).delivered
        = [{ success := false, error := some "fetch failed" }] := by
  have hok := (update_cache_resets_regions netAllOk
    [(DYNAMIC_CACHE_NAME, [(sampleReq.url, sampleResp)])] 1
    (by decide) (by decide)).2.1 (STATIC_FILES.map (fun u => (u, sampleResp))) rfl
  have herr := (update_cache_resets_regions netAllFail
    [(DYNAMIC_CACHE_NAME, [(sampleReq.url, sampleResp)])] 1
    (by decide) (by decide)).2.2 "fetch failed" rfl
  exact ⟨rfl, hok.1, hok.2.2.1 sampleReq.url (by decide),
    hok.2.2.2 "/index.html" (by decide), rfl, herr.1⟩

/-- C8: whatever the network does, the install handler's awaited chain
resolves (a failed bulk population is logged and swallowed, leaving the
static region opened but unpopulated) and `self.skipWaiting()` is called
regardless. -/
theorem install_failure_swallowed (network : String → Except String Response)
    (st : CacheState) :
    (handleInstall network st).skipWaitingCalled = true
    ∧ (handleInstall network st).waitUntilResolved = true
    ∧ ∀ e, addAll network STATIC_FILES = .error e →
        (handleInstall network st).loggedError = some e
        ∧ (handleInstall network st).st = cachesOpen st STATIC_CACHE_NAME := by
  cases ha : addAll network STATIC_FILES with
  | ok entries =>
      have hval : handleInstall network st
          = { st := putAll (cachesOpen st STATIC_CACHE_NAME) STATIC_CACHE_NAME entries,
              skipWaitingCalled := true, waitUntilResolved := true,
              loggedError := none } := by
        simp only [handleInstall, installChain, ha]
      refine ⟨by rw [hval], by rw [hval], ?_⟩
      intro e he
      cases he
  | error e0 =>
      have hval : handleInstall network st
          = { st := cachesOpen st STATIC_CACHE_NAME, skipWaitingCalled := true,
              waitUntilResolved := true, loggedError := some e0 } := by
        simp only [handleInstall, installChain, ha]
      refine ⟨by rw [hval], by rw [hval], ?_⟩
      intro e he
      injection he with h
      subst h
      exact ⟨by rw [hval], by rw [hval]⟩

/-- Witness for C8: a network where every fetch fails. -/
theorem install_failure_swallowed_app :
    addAll netAllFail STATIC_FILES = .error "fetch failed"
    ∧ (handleInstall netAllFail []).skipWaitingCalled = true
    ∧ (handleInstall netAllFail []).waitUntilResolved = true
    ∧ (handleInstall netAllFail []).loggedError = some "fetch failed" := by
  have h := install_failure_swallowed netAllFail []
  exact ⟨rfl, h.1, h.2.1, (h.2.2 "fetch failed" rfl).1⟩

/-- C10: on an `UPDATE_CACHE` message with an empty port list, whichever
path runs attempts `event.ports[0].postMessage`, the reply step throws, no
reply is delivered, and the chain ends rejected. -/
theorem update_cache_without_port (network : String → Except String Response)
    (st : CacheState) :
    ∃ o, (handleMessage network st 0 (some "UPDATE_CACHE")).update = some o
      ∧ o.delivered = []
      ∧ o.chainRejected = true
      ∧ o.failurePostAttempted = true
      ∧ (∀ entries, addAll network STATIC_FILES = .ok entries →
          o.successPostAttempted = true) := by
  refine ⟨handleUpdateCache network st 0, by simp [handleMessage], ?_, ?_, ?_, ?_⟩
  · cases ha : addAll network STATIC_FILES with
    | ok entries => simp only [handleUpdateCache, ha]; rw [if_pos trivial]
    | error e => simp only [handleUpdateCache, ha]; rw [if_pos trivial]
  · cases ha : addAll network STATIC_FILES with
    | ok entries => simp only [handleUpdateCache, ha]; rw [if_pos trivial]
    | error e => simp only [handleUpdateCache, ha]; rw [if_pos trivial]
  · cases ha : addAll network STATIC_FILES with
    | ok entries => simp only [handleUpdateCache, ha]; rw [if_pos trivial]
    | error e => simp only [handleUpdateCache, ha]; rw [if_pos trivial]
  · intro entries ha
    simp only [handleUpdateCache, ha]
    rw [if_pos trivial]

/-- Witness for C10: an all-succeeding network (so the success path runs,
its post throws, the catch's post throws again). -/
theorem update_cache_without_port_app :
    ∃ o, (handleMessage netAllOk [] 0 (some "UPDATE_CACHE")).update = some o
      ∧ o.delivered = []
      ∧ o.chainRejected = true
      ∧ o.failurePostAttempted = true
      ∧ o.successPostAttempted = true := by
  obtain ⟨o, h1, h2, h3, h4, h5⟩ := update_cache_without_port netAllOk []
  exact ⟨o, h1, h2, h3, h4, h5 (STATIC_FILES.map (fun u => (u, sampleResp))) rfl⟩

/-- C7 counterexample: at a concrete same-origin request fetched over the
network with a 200 `"basic"` response, the fetch handler's write into the
DYNAMIC region is a floating task, not part of the chain handed to
`event.respondWith` — refuting that every asynchronous chain is wrapped in
the keep-alive mechanism. -/
theorem fetch_write_not_awaited_cex :
    (handleFetch sampleOriginOf "https://app.example" sampleNet [] sampleReq).map
        FetchResult.floating
      = some [(DYNAMIC_CACHE_NAME, sampleReq.url, sampleResp)]
    ∧ ¬ (handleFetch sampleOriginOf "https://app.example" sampleNet [] sampleReq).map
        FetchResult.floating = some [] := by
  refine ⟨rfl, fun h2 => ?_⟩
  rw [show (handleFetch sampleOriginOf "https://app.example" sampleNet [] sampleReq).map
      FetchResult.floating
      = some [(DYNAMIC_CACHE_NAME, sampleReq.url, sampleResp)] from rfl] at h2
  exact List.cons_ne_nil _ _ (Option.some.inj h2)

/-- C7 amended: the chain handed to `event.respondWith` performs no cache
write (its guaranteed state is the pre-event state), and the write of a
qualifying fetched response into the DYNAMIC region is started as a
floating chain the platform is not told to wait for. -/
theorem fetch_write_floating (originOf : String → String) (locOrigin : String)
    (network : Request → Except String Response)
    (st : CacheState) (req : Request) (resp : Response)
    (hhandled : originOf req.url = locOrigin ∨ STATIC_FILES.contains req.url)
    (hmiss : cachesMatch st req.url = none)
    (hnet : network req = .ok resp)
    (hs : resp.status = 200) (ht : resp.rtype = "basic") :
    ∃ res, handleFetch originOf locOrigin network st req = some res
      ∧ res.awaitedSt = st
      ∧ res.floating = [(DYNAMIC_CACHE_NAME, req.url, resp)]
      ∧ ¬ res.floating = [] := by
  have hcond : ¬ (¬ originOf req.url = locOrigin
      ∧ ¬ STATIC_FILES.contains req.url = true) := by tauto
  have hval : handleFetch originOf locOrigin network st req
      = some { response := some resp, awaitedSt := st,
               floating := [(DYNAMIC_CACHE_NAME, req.url, resp)] } := by
    simp only [handleFetch, if_neg hcond, hmiss, hnet]
    rw [if_neg (show ¬ (¬ resp.status = 200 ∨ ¬ resp.rtype = "basic") from
      by tauto)]
  exact ⟨_, hval, rfl, rfl, by simp⟩

/-- Witness for the amended C7. -/
theorem fetch_write_floating_app :
    ∃ res, handleFetch sampleOriginOf "https://app.example" sampleNet [] sampleReq
        = some res
      ∧ res.floating = [(DYNAMIC_CACHE_NAME, sampleReq.url, sampleResp)]
      ∧ ¬ res.floating = [] := by
  obtain ⟨res, h1, _, h3, h4⟩ := fetch_write_floating sampleOriginOf
    "https://app.example" sampleNet [] sampleReq sampleResp
    (Or.inl rfl) rfl rfl rfl rfl
  exact ⟨res, h1, h3, h4⟩

end SW
